import Mathlib

/-!
Shallow embedding of the vocabulary filtering and word-selection engine of
the flashread repository (src/flashcard_app.py, src/text_processor.py,
src/utils.py).

Words are modelled as `List Char` (a Python `str` as a sequence of
characters).  The pandas vocabulary DataFrame (columns `Word`, `length`,
`Count`) is modelled as a `List VocabEntry`.  The mutable UI state that the
filtering code reads (`toggle_states`, `slider_min_value`,
`slider_max_value`) is modelled as a `FilterState` record; `toggle_states`
is a Python dict whose keys are exactly the 26 letters of
`self.alphabet = "abcdefghijklmnopqrstuvwxyz"`, iterated in insertion
order, so it is modelled as a Boolean-valued function consulted on that
fixed alphabet list.  `random.choice` is modelled by an explicit index
argument (`k % length` selects the element), and the stream of random
draws made by `get_display_word` by a function `Nat → Nat`.
-/

/-- A row of the vocabulary DataFrame: columns `Word`, `length`, `Count`.
The `length` column is whatever integer the DataFrame holds; the invariant
`length = word.length` is stated as a hypothesis where a claim assumes it. -/
structure VocabEntry where
  word : List Char
  length : Int
  count : Int
deriving DecidableEq, Repr

/-- The fixed alphabet `self.alphabet = "abcdefghijklmnopqrstuvwxyz"`,
which is exactly the key set (in insertion order) of `toggle_states`. -/
def alphabet : List Char :=
  ['a','b','c','d','e','f','g','h','i','j','k','l','m',
   'n','o','p','q','r','s','t','u','v','w','x','y','z']

/-- The UI state read by the filtering/selection code:
`toggle_states` (dict letter → bool), `slider_min_value`,
`slider_max_value`. -/
structure FilterState where
  toggle_states : Char → Bool
  slider_min_value : Int
  slider_max_value : Int

/-- `active_letters = "".join([letter for letter, state in
self.toggle_states.items() if state])` — the letters whose toggle is on,
in alphabet order. -/
def active_letters (st : FilterState) : List Char :=
  alphabet.filter st.toggle_states

/-- Whether a single character matches the regex character class
`[active_letters]` under `re.IGNORECASE` (`case=False`): the class holds
only lowercase ASCII letters, so a character matches iff its lowercase
form is in the class. -/
def charMatchesClass (active : List Char) (c : Char) : Bool :=
  active.contains c.toLower

/-- `Series.str.contains(f"^[{active}]+$", regex=True, case=False)` on a
word `w`, i.e. `re.search` of the anchored pattern without `MULTILINE`:
it succeeds iff the whole string is a nonempty run of class characters,
or everything before a single terminal newline is (Python `$` also
matches just before a final `'\n'`). -/
def str_contains_anchored (active : List Char) (w : List Char) : Bool :=
  (!w.isEmpty && w.all (charMatchesClass active))
  || (decide (2 ≤ w.length) && (w.getLast? == some '\n')
      && w.dropLast.all (charMatchesClass active))

/-- `FlashCardApp.get_filtered_df`: early-returns the empty DataFrame when
no letters are toggled on, otherwise keeps the rows whose `Word` matches
`^[active_letters]+$` (case-insensitive) and whose `length` column lies
between the two slider values. -/
def get_filtered_df (st : FilterState) (vocabulary_df : List VocabEntry) :
    List VocabEntry :=
  let active := active_letters st
  if active.isEmpty then []
  else
    vocabulary_df.filter (fun e =>
      str_contains_anchored active e.word
      && decide (st.slider_min_value ≤ e.length)
      && decide (e.length ≤ st.slider_max_value))

/-- `FlashCardApp.validate_word_matches_filters`: `False` on `None`;
otherwise requires a nonempty active-letter set, that the set of lowered
characters of the word is a subset of the active letters, and that
`len(word)` lies between the slider values. -/
def validate_word_matches_filters (st : FilterState) (word : Option (List Char)) :
    Bool :=
  match word with
  | none => false
  | some w =>
    let active := (alphabet.filter st.toggle_states).map Char.toLower
    if active.isEmpty then false
    else if !((w.map Char.toLower).all (fun c => active.contains c)) then false
    else if decide ((w.length : Int) < st.slider_min_value)
            || decide (st.slider_max_value < (w.length : Int)) then false
    else true

/-- `FlashCardApp.get_random_word`: `None` when the filtered DataFrame is
empty, otherwise `random.choice(filtered_df["Word"].tolist())`; the random
draw is modelled by the index `k % length`. -/
def get_random_word (k : Nat) (st : FilterState) (vocabulary_df : List VocabEntry) :
    Option (List Char) :=
  let filtered_df := get_filtered_df st vocabulary_df
  if filtered_df.isEmpty then none
  else some ((filtered_df.map VocabEntry.word).getD (k % filtered_df.length) [])

/-- The attempt loop of `FlashCardApp.get_display_word`: each attempt draws
a candidate with `get_random_word` and returns it iff it is not `None` and
passes `validate_word_matches_filters`; after the attempts are exhausted
the result is `None`. -/
def display_word_attempts : Nat → (Nat → Nat) → FilterState → List VocabEntry →
    Option (List Char)
  | 0, _, _, _ => none
  | n + 1, ks, st, vocabulary_df =>
    match get_random_word (ks 0) st vocabulary_df with
    | some w =>
      if validate_word_matches_filters st (some w) then some w
      else display_word_attempts n (fun i => ks (i + 1)) st vocabulary_df
    | none => display_word_attempts n (fun i => ks (i + 1)) st vocabulary_df

/-- `FlashCardApp.get_display_word`: one initial attempt followed by
`max_attempts = 10` retries, eleven attempts in total; `ks` enumerates the
successive random draws. -/
def get_display_word (ks : Nat → Nat) (st : FilterState)
    (vocabulary_df : List VocabEntry) : Option (List Char) :=
  display_word_attempts 11 ks st vocabulary_df

/-- A word of the vocabulary data model: nonempty and free of newline
characters (vocabulary words are lowercase alphabetic strings with no
punctuation, per the construction pipeline). -/
def word_wf (w : List Char) : Prop :=
  w ≠ [] ∧ '\n' ∉ w

instance (w : List Char) : Decidable (word_wf w) := by
  unfold word_wf; infer_instance

/-- A row of the combined word-list DataFrame inside
`TextProcessor.create_vocabulary_dataframe`: columns `Word` and `Count`. -/
structure RawRow where
  word : List Char
  count : Int
deriving DecidableEq, Repr

/-- `filtered_df["length"] = filtered_df["Word"].str.len()`: attach the
character count of the word as the `length` column. -/
def add_length_column (r : RawRow) : VocabEntry :=
  ⟨r.word, (r.word.length : Int), r.count⟩

/-- `DataFrame.drop_duplicates(subset=["Word"])` with the pandas default
`keep="first"`: a row is dropped iff an earlier row has the same `Word`;
`seen` accumulates the words already kept. -/
def drop_duplicates_by_word : List VocabEntry → List (List Char) → List VocabEntry
  | [], _ => []
  | e :: rest, seen =>
    if e.word ∈ seen then drop_duplicates_by_word rest seen
    else e :: drop_duplicates_by_word rest (e.word :: seen)

/-- Tail of `TextProcessor.create_vocabulary_dataframe` starting from the
combined word-list rows: keep rows with `Count > min_frequency`, attach the
`length` column, then `drop_duplicates(subset=["Word"]).reset_index(drop=True)`. -/
def create_vocabulary_dataframe (min_frequency : Int) (combined_df : List RawRow) :
    List VocabEntry :=
  let filtered_df := combined_df.filter (fun r => decide (min_frequency < r.count))
  drop_duplicates_by_word (filtered_df.map add_length_column) []

/-- De-duplication as the spec words it: "last write wins", i.e. of several
rows sharing a word the LAST one is retained (a row is dropped iff a later
row has the same `Word`).  Stated for comparison with
`create_vocabulary_dataframe`, which follows the source. -/
def drop_duplicates_keep_last (l : List VocabEntry) : List VocabEntry :=
  (drop_duplicates_by_word l.reverse []).reverse

/-- `create_vocabulary_dataframe` as the spec's de-duplication rule would
have it (last write wins); used only to compare against the source's
behaviour. -/
def create_vocabulary_dataframe_lastwins (min_frequency : Int)
    (combined_df : List RawRow) : List VocabEntry :=
  let filtered_df := combined_df.filter (fun r => decide (min_frequency < r.count))
  drop_duplicates_keep_last (filtered_df.map add_length_column)

/-- `str.lower()`, per character (ASCII case mapping). -/
def py_lower (w : List Char) : List Char :=
  w.map Char.toLower

/-- `str.upper()`, per character (ASCII case mapping). -/
def py_upper (w : List Char) : List Char :=
  w.map Char.toUpper

/-- `str.title()`: a character is uppercased when the previous character is
not a letter (so each hyphen-separated chunk gets a capital), lowercased
otherwise; the flag carries whether the previous character was a letter. -/
def py_title_aux : Bool → List Char → List Char
  | _, [] => []
  | prevAlpha, c :: rest =>
    (if prevAlpha then c.toLower else c.toUpper) :: py_title_aux c.isAlpha rest

/-- `str.title()` on a word. -/
def py_title (w : List Char) : List Char :=
  py_title_aux false w

/-- The three radio-button values of `self.case_options`
(`"lower"`, `"UPPER"`, `"Title"`). -/
def case_lower : List Char := ['l','o','w','e','r']

def case_upper : List Char := ['U','P','P','E','R']

def case_title : List Char := ['T','i','t','l','e']

/-- The case-formatting branch of `FlashCardApp.display_word`: the
`if`/`elif` chain on `self.selected_case`; any other value leaves the
string unchanged (there is no `else`). -/
def apply_case (selected_case : List Char) (w : List Char) : List Char :=
  if selected_case = case_lower then py_lower w
  else if selected_case = case_upper then py_upper w
  else if selected_case = case_title then py_title w
  else w

/-- `utils.hyphenate_word`: `"-".join(silabeador.syllabify(word))`.  The
external syllabifier is a parameter returning either its syllable list or
an exception; the join itself cannot fail. -/
def hyphenate_word (syllabify : List Char → Except Unit (List (List Char)))
    (word : List Char) : Except Unit (List Char) :=
  match syllabify word with
  | Except.ok syllables => Except.ok (List.intercalate ['-'] syllables)
  | Except.error e => Except.error e

/-- The string computed by `FlashCardApp.display_word` before rendering:
`"no words"` when the word is `None`; otherwise hyphenation (when enabled,
with `try/except` fallback to the unhyphenated word) followed by case
formatting. -/
def display_word_string (syllabify : List Char → Except Unit (List (List Char)))
    (hyphenate_enabled : Bool) (selected_case : List Char)
    (word : Option (List Char)) : List Char :=
  match word with
  | none => ['n','o',' ','w','o','r','d','s']
  | some w =>
    let dw :=
      if hyphenate_enabled then
        match hyphenate_word syllabify w with
        | Except.ok h => h
        | Except.error _ => w
      else w
    apply_case selected_case dw

/-- `self.SLIDER_WIDTH = 120`. -/
def SLIDER_WIDTH : Int := 120

/-- `FlashCardApp.update_sliders`: no-op when the settings panel is hidden;
while dragging the min handle, clamp the x offset from the slider start
into `[0, SLIDER_WIDTH]` and set `slider_min_value = 4 + (x*4) // 120`
(Python floor division; the offset is clamped nonnegative); symmetrically
for the max handle, whose slider starts 200 px further right.  Only the
dragged bound is assigned. -/
def update_sliders (settings_visible : Bool) (slider_start_x pos_x : Int)
    (dragging_min dragging_max : Bool) (st : FilterState) : FilterState :=
  if !settings_visible then st
  else if dragging_min then
    let relative_x := pos_x - slider_start_x
    let relative_x := max 0 (min relative_x SLIDER_WIDTH)
    { st with slider_min_value := 4 + (relative_x * 4) / SLIDER_WIDTH }
  else if dragging_max then
    let max_slider_start_x := slider_start_x + 200
    let relative_x := pos_x - max_slider_start_x
    let relative_x := max 0 (min relative_x SLIDER_WIDTH)
    { st with slider_max_value := 4 + (relative_x * 4) / SLIDER_WIDTH }
  else st

/-- `FlashCardApp.__init__`: raises `ValueError` when the DataFrame is
`None` or empty, otherwise stores it; the raise is modelled as `Except`. -/
def flashCardApp_init (vocabulary_df : Option (List VocabEntry)) :
    Except (List Char) (List VocabEntry) :=
  match vocabulary_df with
  | none => Except.error ['e','m','p','t','y']
  | some df =>
    if df.isEmpty then Except.error ['e','m','p','t','y']
    else Except.ok df

/-! ## Concrete stores and states used by the witnesses -/

/-- A store shaped like the spec's Scenario A data:
casa(4,100), perro(5,85), gato(4,75). -/
def sample_df : List VocabEntry :=
  [⟨['c','a','s','a'], 4, 100⟩, ⟨['p','e','r','r','o'], 5, 85⟩,
   ⟨['g','a','t','o'], 4, 75⟩]

/-- The UI's initial state: toggles on for the letters of `"aeiouscl"`,
sliders at 4 and 8. -/
def default_state : FilterState :=
  ⟨fun c => ['a','e','i','o','u','s','c','l'].contains c, 4, 8⟩

/-- A state with every letter toggled off. -/
def no_letters_state : FilterState :=
  ⟨fun _ => false, 4, 8⟩

/-- A state whose min slider (8) exceeds its max slider (4). -/
def min_gt_max_state : FilterState :=
  ⟨fun c => ['a','s','c'].contains c, 8, 4⟩

/-! ## Helper lemmas -/

theorem toLower_fixed_on_alphabet : ∀ c ∈ alphabet, c.toLower = c := by decide

theorem map_toLower_filter_alphabet (p : Char → Bool) :
    (alphabet.filter p).map Char.toLower = alphabet.filter p := by
  have h : ∀ c ∈ alphabet.filter p, c.toLower = c := fun c hc =>
    toLower_fixed_on_alphabet c (List.mem_of_mem_filter hc)
  calc (alphabet.filter p).map Char.toLower
      = (alphabet.filter p).map id := List.map_congr_left h
    _ = alphabet.filter p := List.map_id _

/-- Membership in the filtered DataFrame, unfolded: some letter is active,
the row is in the store, its word matches the anchored pattern, and its
`length` column lies between the sliders. -/
theorem mem_get_filtered_df (st : FilterState) (df : List VocabEntry)
    (e : VocabEntry) :
    e ∈ get_filtered_df st df ↔
      ((active_letters st).isEmpty = false ∧ e ∈ df
        ∧ str_contains_anchored (active_letters st) e.word = true
        ∧ st.slider_min_value ≤ e.length ∧ e.length ≤ st.slider_max_value) := by
  unfold get_filtered_df
  cases h : (active_letters st).isEmpty with
  | true => simp [h]
  | false =>
    simp only [h, Bool.false_eq_true, if_false, List.mem_filter,
      Bool.and_eq_true, decide_eq_true_eq]
    tauto

/-- `validate_word_matches_filters`, unfolded on a present word. -/
theorem validate_iff (st : FilterState) (w : List Char) :
    validate_word_matches_filters st (some w) = true ↔
      ((active_letters st).isEmpty = false
        ∧ w.all (charMatchesClass (active_letters st)) = true
        ∧ st.slider_min_value ≤ (w.length : Int)
        ∧ (w.length : Int) ≤ st.slider_max_value) := by
  have hmap : (alphabet.filter st.toggle_states).map Char.toLower
      = active_letters st := map_toLower_filter_alphabet st.toggle_states
  have hall : ((w.map Char.toLower).all
        (fun c => (active_letters st).contains c))
      = w.all (charMatchesClass (active_letters st)) := by
    rw [List.all_map]; rfl
  simp only [validate_word_matches_filters, hmap, hall]
  cases h1 : (active_letters st).isEmpty with
  | true => simp [h1]
  | false =>
    cases h2 : w.all (charMatchesClass (active_letters st)) with
    | false => simp [h2]
    | true =>
      simp only [Bool.not_true, Bool.false_eq_true, if_false, Bool.or_eq_true,
        decide_eq_true_eq]
      constructor
      · intro h
        by_cases hlt : ((w.length : Int) < st.slider_min_value
            ∨ st.slider_max_value < (w.length : Int))
        · rw [if_pos hlt] at h; cases h
        · exact ⟨by trivial, by trivial, by omega, by omega⟩
      · rintro ⟨_, _, ha, hb⟩
        rw [if_neg (by omega)]

/-- For a well-formed word (nonempty, no newline) the anchored regex search
is exactly the all-characters-in-class check. -/
theorem str_contains_anchored_wf (active : List Char) (w : List Char)
    (hw : word_wf w) :
    str_contains_anchored active w = true
      ↔ w.all (charMatchesClass active) = true := by
  obtain ⟨hne, hnl⟩ := hw
  unfold str_contains_anchored
  constructor
  · intro h
    rcases Bool.or_eq_true _ _ |>.mp h with h1 | h2
    · exact (Bool.and_eq_true _ _ |>.mp h1).2
    · exfalso
      obtain ⟨hl, _⟩ := Bool.and_eq_true _ _ |>.mp h2
      obtain ⟨_, hlast⟩ := Bool.and_eq_true _ _ |>.mp hl
      exact hnl (List.mem_of_mem_getLast? (beq_iff_eq.mp hlast))
  · intro h
    refine Bool.or_eq_true _ _ |>.mpr (Or.inl (Bool.and_eq_true _ _ |>.mpr ⟨?_, h⟩))
    cases hie : w.isEmpty with
    | false => rfl
    | true => exact absurd (List.isEmpty_iff.mp hie) hne

theorem display_word_attempts_of_empty (st : FilterState) (df : List VocabEntry)
    (h : get_filtered_df st df = []) :
    ∀ n ks, display_word_attempts n ks st df = none := by
  intro n
  induction n with
  | zero => intro ks; rfl
  | succ n ih =>
    intro ks
    have hr : get_random_word (ks 0) st df = none := by
      unfold get_random_word
      simp [h]
    simp only [display_word_attempts, hr]
    exact ih _

/-! ## Claims -/

/-- Claim C1: if the filtered subset is empty, `get_display_word` returns
the explicit no-match sentinel (`None`), never a word drawn from the
unfiltered store. -/
theorem filter_empty_gives_no_match (ks : Nat → Nat) (st : FilterState)
    (df : List VocabEntry) (h : get_filtered_df st df = []) :
    get_display_word ks st df = none :=
  display_word_attempts_of_empty st df h 11 ks

theorem filter_empty_gives_no_match_witness :
    get_filtered_df no_letters_state sample_df = []
      ∧ get_display_word (fun _ => 0) no_letters_state sample_df = none :=
  ⟨by decide,
   filter_empty_gives_no_match (fun _ => 0) no_letters_state sample_df (by decide)⟩

/-- Claim C5: the filtered subset is empty whenever no letter is toggled on
(the definition early-returns in that case, mirroring the source), and
likewise empty whenever the min slider exceeds the max slider. -/
theorem degenerate_filter_is_empty (st : FilterState) (df : List VocabEntry) :
    (active_letters st = [] → get_filtered_df st df = [])
      ∧ (st.slider_max_value < st.slider_min_value →
          get_filtered_df st df = []) := by
  constructor
  · intro h
    simp [get_filtered_df, h]
  · intro h
    simp only [get_filtered_df]
    cases hh : (active_letters st).isEmpty with
    | true => simp
    | false =>
      simp only [Bool.false_eq_true, if_false]
      rw [List.filter_eq_nil_iff]
      intro a _
      simp only [Bool.and_eq_true, decide_eq_true_eq, not_and]
      intro _ _
      omega

theorem degenerate_filter_is_empty_witness :
    get_filtered_df no_letters_state sample_df = []
      ∧ get_filtered_df min_gt_max_state sample_df = [] :=
  ⟨(degenerate_filter_is_empty no_letters_state sample_df).1 (by decide),
   (degenerate_filter_is_empty min_gt_max_state sample_df).2 (by decide)⟩

/-- Claim C2: on a store whose rows carry the `length == len(word)`
invariant (with well-formed words), a row is in the filtered DataFrame iff
`validate_word_matches_filters` accepts its word — the filtering engine and
the validation predicate decide membership identically. -/
theorem filtered_iff_validate (st : FilterState) (df : List VocabEntry)
    (e : VocabEntry)
    (hinv : ∀ x ∈ df, x.length = (x.word.length : Int) ∧ word_wf x.word)
    (he : e ∈ df) :
    e ∈ get_filtered_df st df
      ↔ validate_word_matches_filters st (some e.word) = true := by
  obtain ⟨hlen, hwf⟩ := hinv e he
  rw [mem_get_filtered_df, validate_iff, str_contains_anchored_wf _ _ hwf, hlen]
  tauto

theorem filtered_iff_validate_witness :
    ((⟨['c','a','s','a'], 4, 100⟩ : VocabEntry)
        ∈ get_filtered_df default_state sample_df)
      ↔ validate_word_matches_filters default_state
          (some ['c','a','s','a']) = true :=
  filtered_iff_validate default_state sample_df ⟨['c','a','s','a'], 4, 100⟩
    (by decide) (by decide)

/-- Soundness of the attempt loop: it only ever returns a word that passes
`validate_word_matches_filters`. -/
theorem display_word_attempts_sound (st : FilterState) (df : List VocabEntry) :
    ∀ n ks w, display_word_attempts n ks st df = some w →
      validate_word_matches_filters st (some w) = true := by
  intro n
  induction n with
  | zero => intro ks w h; cases h
  | succ n ih =>
    intro ks w h
    cases hr : get_random_word (ks 0) st df with
    | none =>
      simp only [display_word_attempts, hr] at h
      exact ih _ _ h
    | some c =>
      simp only [display_word_attempts, hr] at h
      by_cases hv : validate_word_matches_filters st (some c) = true
      · rw [if_pos hv] at h
        cases h
        exact hv
      · rw [if_neg hv] at h
        exact ih _ _ h

/-- Claim C3: `get_display_word` returns either the no-match sentinel or a
word accepted by `validate_word_matches_filters` for the state read at call
time; when every attempt fails validation the loop runs out and the result
is the sentinel (the `n = 0` base case of the attempt loop). -/
theorem display_word_validates (ks : Nat → Nat) (st : FilterState)
    (df : List VocabEntry) (w : List Char)
    (h : get_display_word ks st df = some w) :
    validate_word_matches_filters st (some w) = true :=
  display_word_attempts_sound st df 11 ks w h

theorem display_word_validates_witness :
    validate_word_matches_filters default_state (some ['c','a','s','a']) = true :=
  display_word_validates (fun _ => 0) default_state sample_df
    ['c','a','s','a'] (by decide)

/-- Claim C4: with at least one letter toggled on, a row of the store is in
the filtered DataFrame iff its `length` column lies between the sliders and
every character of its word, lowercased, is an active letter — the word's
character set must be a subset of the allowed set. -/
theorem filter_membership_iff (st : FilterState) (df : List VocabEntry)
    (e : VocabEntry) (hactive : active_letters st ≠ [])
    (he : e ∈ df) (hw : word_wf e.word) :
    e ∈ get_filtered_df st df
      ↔ (st.slider_min_value ≤ e.length ∧ e.length ≤ st.slider_max_value
          ∧ ∀ c ∈ e.word, c.toLower ∈ active_letters st) := by
  rw [mem_get_filtered_df, str_contains_anchored_wf _ _ hw]
  have hie : (active_letters st).isEmpty = false := by
    cases hh : (active_letters st).isEmpty with
    | false => rfl
    | true => exact absurd (List.isEmpty_iff.mp hh) hactive
  have hall : e.word.all (charMatchesClass (active_letters st)) = true
      ↔ ∀ c ∈ e.word, c.toLower ∈ active_letters st := by
    rw [List.all_eq_true]
    constructor
    · intro h c hc
      exact List.elem_iff.mp (h c hc)
    · intro h c hc
      exact List.elem_iff.mpr (h c hc)
  rw [hall]
  simp only [hie, true_and, he]
  tauto

theorem filter_membership_iff_witness :
    ((⟨['g','a','t','o'], 4, 75⟩ : VocabEntry)
        ∈ get_filtered_df default_state sample_df)
      ↔ ((4 : Int) ≤ 4 ∧ (4 : Int) ≤ 8
          ∧ ∀ c ∈ ['g','a','t','o'], c.toLower ∈ active_letters default_state) :=
  filter_membership_iff default_state sample_df ⟨['g','a','t','o'], 4, 75⟩
    (by decide) (by decide) (by decide)

/-- Entries surviving `drop_duplicates_by_word` have a word outside `seen`,
and are the first row of the input carrying their word. -/
theorem dedup_find_first :
    ∀ (l : List VocabEntry) (seen : List (List Char)) (e : VocabEntry),
      e ∈ drop_duplicates_by_word l seen →
        e.word ∉ seen ∧ l.find? (fun r => r.word == e.word) = some e := by
  intro l
  induction l with
  | nil => intro seen e h; cases h
  | cons x rest ih =>
    intro seen e h
    unfold drop_duplicates_by_word at h
    by_cases hx : x.word ∈ seen
    · rw [if_pos hx] at h
      obtain ⟨hns, hf⟩ := ih seen e h
      have hne : (x.word == e.word) = false := by
        cases hb : x.word == e.word with
        | false => rfl
        | true => exact absurd (beq_iff_eq.mp hb ▸ hx) hns
      exact ⟨hns, by rw [List.find?_cons_of_neg _ (by simp [hne]), hf]⟩
    · rw [if_neg hx] at h
      rcases List.mem_cons.mp h with rfl | h2
      · exact ⟨hx, List.find?_cons_of_pos _ (by simp)⟩
      · obtain ⟨hns, hf⟩ := ih (x.word :: seen) e h2
        have hxe : x.word ≠ e.word := fun hw =>
          hns (hw ▸ List.mem_cons_self x.word seen)
        refine ⟨fun hm => hns (List.mem_cons_of_mem _ hm), ?_⟩
        rw [List.find?_cons_of_neg _ (by simp [hxe]), hf]

/-- The words surviving `drop_duplicates_by_word` are pairwise distinct and
disjoint from `seen`. -/
theorem dedup_words_nodup :
    ∀ (l : List VocabEntry) (seen : List (List Char)),
      ((drop_duplicates_by_word l seen).map VocabEntry.word).Nodup
        ∧ ∀ w ∈ (drop_duplicates_by_word l seen).map VocabEntry.word,
            w ∉ seen := by
  intro l
  induction l with
  | nil => intro seen; simp [drop_duplicates_by_word]
  | cons x rest ih =>
    intro seen
    unfold drop_duplicates_by_word
    by_cases hx : x.word ∈ seen
    · rw [if_pos hx]; exact ih seen
    · rw [if_neg hx]
      obtain ⟨hnd, hdisj⟩ := ih (x.word :: seen)
      constructor
      · simp only [List.map_cons, List.nodup_cons]
        exact ⟨fun hmem => (hdisj _ hmem) (List.mem_cons_self _ _), hnd⟩
      · intro w hw
        simp only [List.map_cons, List.mem_cons] at hw
        rcases hw with rfl | hw
        · exact hx
        · exact fun hs => hdisj _ hw (List.mem_cons_of_mem _ hs)

/-- Every input row's word survives de-duplication (as the word of some
kept entry) unless it was already in `seen`. -/
theorem dedup_complete :
    ∀ (l : List VocabEntry) (seen : List (List Char)) (r : VocabEntry),
      r ∈ l → r.word ∈ seen
        ∨ ∃ e ∈ drop_duplicates_by_word l seen, e.word = r.word := by
  intro l
  induction l with
  | nil => intro seen r h; cases h
  | cons x rest ih =>
    intro seen r h
    unfold drop_duplicates_by_word
    rcases List.mem_cons.mp h with rfl | h2
    · by_cases hx : r.word ∈ seen
      · exact Or.inl hx
      · rw [if_neg hx]
        exact Or.inr ⟨r, List.mem_cons_self _ _, rfl⟩
    · by_cases hx : x.word ∈ seen
      · rw [if_pos hx]; exact ih seen r h2
      · rw [if_neg hx]
        rcases ih (x.word :: seen) r h2 with hs | ⟨e, he, hw⟩
        · rcases List.mem_cons.mp hs with heq | hs2
          · exact Or.inr ⟨x, List.mem_cons_self _ _, heq.symm⟩
          · exact Or.inl hs2
        · exact Or.inr ⟨e, List.mem_cons_of_mem _ he, hw⟩

/-- Claim C6, counterexample: on two rows sharing the word "casa" with
counts 1 then 2, the source retains the FIRST row (count 1) — pandas
`drop_duplicates` defaults to `keep="first"` — while the spec's
last-write-wins rule would retain the second (count 2). -/
theorem dedup_keeps_first_not_last :
    create_vocabulary_dataframe 0
        [⟨['c','a','s','a'], 1⟩, ⟨['c','a','s','a'], 2⟩]
      = [⟨['c','a','s','a'], 4, 1⟩]
    ∧ create_vocabulary_dataframe_lastwins 0
        [⟨['c','a','s','a'], 1⟩, ⟨['c','a','s','a'], 2⟩]
      = [⟨['c','a','s','a'], 4, 2⟩]
    ∧ ([⟨['c','a','s','a'], 4, 1⟩] : List VocabEntry)
      ≠ [⟨['c','a','s','a'], 4, 2⟩] := by
  refine ⟨by decide, by decide, by decide⟩

/-- Claim C6 as amended: in the constructed vocabulary each word appears in
exactly one entry (words are pairwise distinct, and every input row passing
the frequency cut contributes its word), each entry satisfies
`length == len(word)`, and the entry retained for a word is the FIRST row
written with that word (pandas `drop_duplicates` keeps the first
occurrence, not the last). -/
theorem vocabulary_construction (min_frequency : Int)
    (combined_df : List RawRow) :
    ((create_vocabulary_dataframe min_frequency combined_df).map
        VocabEntry.word).Nodup
    ∧ (∀ e ∈ create_vocabulary_dataframe min_frequency combined_df,
        e.length = (e.word.length : Int))
    ∧ (∀ e ∈ create_vocabulary_dataframe min_frequency combined_df,
        (combined_df.filter (fun r => decide (min_frequency < r.count))).find?
            (fun r => r.word == e.word) = some ⟨e.word, e.count⟩)
    ∧ (∀ r ∈ combined_df, min_frequency < r.count →
        ∃ e ∈ create_vocabulary_dataframe min_frequency combined_df,
          e.word = r.word) := by
  have hfirst : ∀ e ∈ create_vocabulary_dataframe min_frequency combined_df,
      ∃ r0, (combined_df.filter
          (fun r => decide (min_frequency < r.count))).find?
            (fun r => r.word == e.word) = some r0
        ∧ add_length_column r0 = e := by
    intro e he
    have h := (dedup_find_first _ [] e he).2
    rw [List.find?_map] at h
    obtain ⟨r0, hr0, hre⟩ := Option.map_eq_some'.mp h
    exact ⟨r0, hr0, hre⟩
  refine ⟨(dedup_words_nodup _ []).1, ?_, ?_, ?_⟩
  · intro e he
    obtain ⟨r0, _, hre⟩ := hfirst e he
    rw [← hre]
    rfl
  · intro e he
    obtain ⟨r0, hr0, hre⟩ := hfirst e he
    have hw : r0.word = e.word := by rw [← hre]; rfl
    have hc : r0.count = e.count := by rw [← hre]; rfl
    rw [hr0]
    cases r0
    simp only at hw hc
    rw [hw, hc]
  · intro r hr hcount
    have hmem : add_length_column r
        ∈ (combined_df.filter
            (fun r => decide (min_frequency < r.count))).map
              add_length_column :=
      List.mem_map_of_mem _ (List.mem_filter.mpr ⟨hr, by simpa using hcount⟩)
    rcases dedup_complete _ [] _ hmem with hs | ⟨e, he, hw⟩
    · cases hs
    · exact ⟨e, he, hw⟩

/-- Rows feeding the construction witness: casa appears twice (counts 5
then 9), gato once (count 7), sol once but below the frequency cut. -/
def raw_rows_example : List RawRow :=
  [⟨['c','a','s','a'], 5⟩, ⟨['c','a','s','a'], 9⟩,
   ⟨['g','a','t','o'], 7⟩, ⟨['s','o','l'], 1⟩]

theorem vocabulary_construction_witness :
    ((create_vocabulary_dataframe 3 raw_rows_example).map
        VocabEntry.word).Nodup
    ∧ (raw_rows_example.filter (fun r => decide ((3 : Int) < r.count))).find?
        (fun r => r.word == ['c','a','s','a']) = some ⟨['c','a','s','a'], 5⟩
    ∧ ∃ e ∈ create_vocabulary_dataframe 3 raw_rows_example,
        e.word = ['g','a','t','o'] :=
  ⟨(vocabulary_construction 3 raw_rows_example).1,
   (vocabulary_construction 3 raw_rows_example).2.2.1
     ⟨['c','a','s','a'], 4, 5⟩ (by decide),
   (vocabulary_construction 3 raw_rows_example).2.2.2
     ⟨['g','a','t','o'], 7⟩ (by decide) (by decide)⟩

/-- Claim C7: when the word is the no-match sentinel (`None`), the display
string is the fixed placeholder "no words", whatever the syllabifier, the
hyphenation flag and the selected case are; in particular no case
transformation or hyphenation touches it. -/
theorem no_match_placeholder
    (syllabify : List Char → Except Unit (List (List Char)))
    (hyphenate_enabled : Bool) (selected_case : List Char) :
    display_word_string syllabify hyphenate_enabled selected_case none
      = ['n','o',' ','w','o','r','d','s'] := rfl

/-- Claim C8: with hyphenation enabled, a failing syllabifier makes the
adapter fall back to the unhyphenated word and still apply the selected
case transformation (no error escapes — the function is total); a
succeeding syllabifier yields its hyphen-joined syllables, to which the
case transformation is then applied. -/
theorem hyphenation_fallback_and_order
    (syllabify : List Char → Except Unit (List (List Char)))
    (selected_case : List Char) (w : List Char) :
    (∀ e : Unit, syllabify w = Except.error e →
        display_word_string syllabify true selected_case (some w)
          = apply_case selected_case w)
    ∧ (∀ syllables, syllabify w = Except.ok syllables →
        display_word_string syllabify true selected_case (some w)
          = apply_case selected_case (List.intercalate ['-'] syllables)) := by
  constructor
  · intro e h
    simp [display_word_string, hyphenate_word, h]
  · intro syllables h
    simp [display_word_string, hyphenate_word, h]

theorem hyphenation_fallback_and_order_witness :
    display_word_string (fun _ => Except.error ()) true case_upper
        (some ['c','a','s','a'])
      = apply_case case_upper ['c','a','s','a']
    ∧ display_word_string (fun _ => Except.ok [['c','a'], ['s','a']]) true
        case_upper (some ['c','a','s','a'])
      = apply_case case_upper (List.intercalate ['-'] [['c','a'], ['s','a']]) :=
  ⟨(hyphenation_fallback_and_order (fun _ => Except.error ()) case_upper
      ['c','a','s','a']).1 () rfl,
   (hyphenation_fallback_and_order (fun _ => Except.ok [['c','a'], ['s','a']])
      case_upper ['c','a','s','a']).2 [['c','a'], ['s','a']] rfl⟩

/-- Claim C9: a drag of the min handle puts `slider_min_value` in [4,8] and
leaves `slider_max_value` untouched; symmetrically for the max handle; and
since neither assignment consults the other bound, dragging min fully right
then max fully left reaches a state with `slider_max_value <
slider_min_value`. -/
theorem update_sliders_clamps_and_frames (slider_start_x pos_x : Int)
    (st : FilterState) :
    (4 ≤ (update_sliders true slider_start_x pos_x true false st).slider_min_value
      ∧ (update_sliders true slider_start_x pos_x true false st).slider_min_value ≤ 8
      ∧ (update_sliders true slider_start_x pos_x true false st).slider_max_value
          = st.slider_max_value)
    ∧ (4 ≤ (update_sliders true slider_start_x pos_x false true st).slider_max_value
      ∧ (update_sliders true slider_start_x pos_x false true st).slider_max_value ≤ 8
      ∧ (update_sliders true slider_start_x pos_x false true st).slider_min_value
          = st.slider_min_value)
    ∧ ((update_sliders true slider_start_x slider_start_x false true
          (update_sliders true slider_start_x (slider_start_x + 120) true false
            st)).slider_max_value
        < (update_sliders true slider_start_x slider_start_x false true
            (update_sliders true slider_start_x (slider_start_x + 120) true false
              st)).slider_min_value) := by
  refine ⟨⟨?_, ?_, ?_⟩, ⟨?_, ?_, ?_⟩, ?_⟩ <;>
    simp only [update_sliders, SLIDER_WIDTH, Bool.not_true, Bool.false_eq_true,
      if_false, if_true] <;>
    omega

/-- Claim C10: the constructor rejects a `None` or empty vocabulary
DataFrame with `ValueError`, so a successfully constructed application
always holds a non-empty store. -/
theorem init_rejects_empty_store :
    flashCardApp_init none = Except.error ['e','m','p','t','y']
    ∧ flashCardApp_init (some []) = Except.error ['e','m','p','t','y']
    ∧ ∀ (vdf : Option (List VocabEntry)) (df : List VocabEntry),
        flashCardApp_init vdf = Except.ok df → df ≠ [] := by
  refine ⟨rfl, rfl, ?_⟩
  intro vdf df h
  cases vdf with
  | none => cases h
  | some l =>
    simp only [flashCardApp_init] at h
    cases hl : l.isEmpty with
    | true => rw [hl] at h; cases h
    | false =>
      rw [hl] at h
      simp only [Bool.false_eq_true, if_false] at h
      cases h
      intro hnil
      rw [hnil] at hl
      cases hl

theorem init_rejects_empty_store_witness :
    ([⟨['s','o','l'], 3, 9⟩] : List VocabEntry) ≠ [] :=
  init_rejects_empty_store.2.2 (some [⟨['s','o','l'], 3, 9⟩])
    [⟨['s','o','l'], 3, 9⟩] rfl
